import Mathlib

/-!
Shallow embedding of the UI layout / rendering-state engine of
`src/source/Interface.cpp` (endless-sky).  Real-valued quantities (C++
`double`) are modelled as rationals; the arithmetic performed by the code
is exact, so nothing is lost by this choice.  External collaborators
(`Screen`, `UI`, `SpriteSet`, `GameData::Colors()`, `FontSet`,
`Information`, `Panel`, the geometry primitives `Point`/`Rectangle`) are
not part of the source under verification; where their behaviour matters
they are modelled from the specification and marked as such.
-/

namespace EndlessSky

/-- 2D point / vector (the `Point` geometry primitive; modelled from the
spec, §3: pure value type with componentwise arithmetic). -/
structure Point where
  x : ℚ
  y : ℚ
deriving DecidableEq, Repr

instance : Inhabited Point := ⟨⟨0, 0⟩⟩

instance : Add Point := ⟨fun p q => ⟨p.x + q.x, p.y + q.y⟩⟩

instance : Sub Point := ⟨fun p q => ⟨p.x - q.x, p.y - q.y⟩⟩

instance : Neg Point := ⟨fun p => ⟨-p.x, -p.y⟩⟩

/-- Componentwise product, `Point::operator*(const Point &)`. -/
instance : Mul Point := ⟨fun p q => ⟨p.x * q.x, p.y * q.y⟩⟩

/-- Scalar product, `operator*(double, const Point &)`. -/
instance : SMul ℚ Point := ⟨fun s p => ⟨s * p.x, s * p.y⟩⟩

/-- Source: `Point::operator!()`: true iff both components are zero. -/
def Point.isZero (p : Point) : Bool :=
  decide (p.x = 0 ∧ p.y = 0)

/-- Modelled from the spec (§3): a rectangle is defined by its center
point and its dimensions; corners and containment are derived. -/
structure Rectangle where
  center : Point
  dimensions : Point
deriving DecidableEq, Repr

instance : Inhabited Rectangle := ⟨⟨⟨0, 0⟩, ⟨0, 0⟩⟩⟩

def Rectangle.Center (r : Rectangle) : Point := r.center

def Rectangle.Dimensions (r : Rectangle) : Point := r.dimensions

def Rectangle.Width (r : Rectangle) : ℚ := r.dimensions.x

def Rectangle.Height (r : Rectangle) : ℚ := r.dimensions.y

def Rectangle.TopLeft (r : Rectangle) : Point :=
  r.center - (1/2 : ℚ) • r.dimensions

def Rectangle.BottomRight (r : Rectangle) : Point :=
  r.center + (1/2 : ℚ) • r.dimensions

/-- Modelled from the spec (§3): containment query of the rectangle. -/
def Rectangle.Contains (r : Rectangle) (p : Point) : Bool :=
  decide (2 * |p.x - r.center.x| ≤ r.dimensions.x ∧
          2 * |p.y - r.center.y| ≤ r.dimensions.y)

/-- Modelled from the spec (§8): `from p to q` produces the rectangle
whose corners are exactly `p` and `q`, min/max normalized. -/
def Rectangle.WithCorners (p q : Point) : Rectangle :=
  ⟨(1/2 : ℚ) • (p + q), ⟨|q.x - p.x|, |q.y - p.y|⟩⟩

/-- Translation of a rectangle by a point (`Rectangle::operator+`). -/
instance : HAdd Rectangle Point Rectangle :=
  ⟨fun r p => ⟨r.center + p, r.dimensions⟩⟩

/-- One already-tokenized line of configuration data (a `DataNode` leaf
as consumed by `Element::Load`): the token strings together with each
token's numeric value (`DataNode::Value`; 0 when not a number). -/
structure DataLine where
  tokens : List String
  values : List ℚ
deriving DecidableEq, Repr

def DataLine.Token (n : DataLine) (i : Nat) : String := n.tokens.getD i ""

def DataLine.Value (n : DataLine) (i : Nat) : ℚ := n.values.getD i 0

def DataLine.Size (n : DataLine) : Nat := n.tokens.length

/-- A configuration node for one element: its own token line plus its
child lines (grandchildren are never consulted by this code). -/
structure DataNode where
  tokens : List String
  values : List ℚ
  children : List DataLine
deriving DecidableEq, Repr

def DataNode.Token (n : DataNode) (i : Nat) : String := n.tokens.getD i ""

def DataNode.Value (n : DataNode) (i : Nat) : ℚ := n.values.getD i 0

def DataNode.Size (n : DataNode) : Nat := n.tokens.length

/-- One step of `ParseAlignment`'s token loop.  The second component of
the accumulator counts the `PrintTrace` diagnostics emitted for
unrecognized tokens (the vector itself is left unchanged by them). -/
def parseAlignStep (acc : Point × Nat) (tok : String) : Point × Nat :=
  if tok = "left" then (⟨-1, acc.1.y⟩, acc.2)
  else if tok = "top" then (⟨acc.1.x, -1⟩, acc.2)
  else if tok = "right" then (⟨1, acc.1.y⟩, acc.2)
  else if tok = "bottom" then (⟨acc.1.x, 1⟩, acc.2)
  else (acc.1, acc.2 + 1)

/-- Source: `ParseAlignment(node, alignment, i)`: scan the tokens from index `i`
on (the caller passes `tokens.drop i`), updating the alignment vector in
place; returns the updated vector and the number of diagnostics. -/
def ParseAlignment (tokens : List String) (alignment : Point) : Point × Nat :=
  tokens.foldl parseAlignStep (alignment, 0)

/-- Per-axis restatement of alignment parsing (following the spec's
words, for the order-independence claim): the horizontal component
depends only on the "left"/"right" keywords, the last of which wins. -/
def lastAlignX (tokens : List String) (x : ℚ) : ℚ :=
  tokens.foldl (fun c t => if t = "left" then -1 else if t = "right" then 1 else c) x

/-- Vertical counterpart of `lastAlignX`: only "top"/"bottom" matter. -/
def lastAlignY (tokens : List String) (y : ℚ) : ℚ :=
  tokens.foldl (fun c t => if t = "top" then -1 else if t = "bottom" then 1 else c) y

/-- The number of unrecognized tokens in an alignment token list (each
of which emits one non-fatal trace). -/
def alignTraceCount (tokens : List String) : Nat :=
  (tokens.filter
    (fun t => decide (t ≠ "left" ∧ t ≠ "top" ∧ t ≠ "right" ∧ t ≠ "bottom"))).length

/-- A sprite handle (the external `Sprite` resource: only its pixel
dimensions are consulted by this code). -/
structure Sprite where
  width : ℚ
  height : ℚ
deriving DecidableEq, Repr

/-- An RGBA color value (the external `Color` resource). -/
structure Color where
  red : ℚ
  green : ℚ
  blue : ℚ
  alpha : ℚ
deriving DecidableEq, Repr

/-- Source: `Color(i, a)`: greyscale constructor used for the plain outline. -/
def Color.grey (i a : ℚ) : Color := ⟨i, i, i, a⟩

/-- Modelled from the spec (§5/§6): the process-wide read-only
registries and per-frame globals consumed by the code, whose sources
(`SpriteSet`, `GameData`, `FontSet`, `UI`, `Screen`) are not part of
this core.  `SpriteSet::Get` and `GameData::Colors().Get` never return
null, so they are total functions here. -/
structure Externals where
  spriteSet : String → Sprite
  colors : String → Color
  fontWidth : ℚ → String → ℚ
  fontHeight : ℚ → ℚ
  mouse : Point
  screen : Point

/-- The per-frame runtime value provider (`Information`); its own source
is not part of this core, so it is a record of opaque lookups. -/
structure Information where
  conditions : String → Bool
  barValue : String → ℚ
  barSegments : String → ℚ
  strings : String → String
  sprites : String → Option Sprite
  spriteUnit : String → Point
  spriteFrame : String → Int
  outlineColor : Color

/-- Modelled from the spec (§6): boolean condition lookup by name, with
an empty name meaning "always true" (`Information::HasCondition`). -/
def Information.HasCondition (info : Information) (s : String) : Bool :=
  decide (s = "") || info.conditions s

/-- The fields of the `Element` base class that are resolved at load
time (`bounds`, element-local `alignment`, `padding`) plus the two
condition names installed by `SetConditions`. -/
structure ElementCommon where
  bounds : Rectangle := ⟨⟨0, 0⟩, ⟨0, 0⟩⟩
  alignment : Point := ⟨0, 0⟩
  padding : Point := ⟨0, 0⟩
  visibleIf : String := ""
  activeIf : String := ""
deriving DecidableEq, Repr

instance : Inhabited ElementCommon := ⟨{}⟩

/-- Source: `Element::SetConditions`. -/
def Element.SetConditions (c : ElementCommon) (visible active : String) :
    ElementCommon :=
  { c with visibleIf := visible, activeIf := active }

/-- The accumulator threaded through `Element::Load`'s loop over child
lines: the base-class fields, the subclass state `σ` mutated by the
virtual `ParseLine`, and the local `isCentered` flag. -/
structure LoadAcc (σ : Type) where
  common : ElementCommon
  kind : σ
  isCentered : Bool

/-- The body of `Element::Load`'s loop for one child line; `parseLineFn`
is the subclass's virtual `ParseLine` (returning `none` where the C++
returns false).  Unrecognized lines only emit a diagnostic trace and
leave the state unchanged. -/
def loadLine {σ : Type} (globalAlignment : Point)
    (parseLineFn : DataLine → σ → Option σ)
    (acc : LoadAcc σ) (child : DataLine) : LoadAcc σ :=
  let hasDimensions : Bool := decide (child.Token 0 = "dimensions" ∧ 3 ≤ child.Size)
  let hasWidth : Bool := hasDimensions || decide (child.Token 0 = "width" ∧ 2 ≤ child.Size)
  let hasHeight : Bool := hasDimensions || decide (child.Token 0 = "height" ∧ 2 ≤ child.Size)
  if child.Token 0 = "align" ∧ 1 < child.Size then
    { acc with common.alignment :=
        (ParseAlignment (child.tokens.drop 1) acc.common.alignment).1 }
  else if hasWidth || hasHeight then
    let acc1 :=
      if hasWidth then
        let newWidth := child.Value 1
        let center := acc.common.bounds.Center
        let dimensions := acc.common.bounds.Dimensions
        let center : Point :=
          if acc.isCentered then center
          else ⟨center.x + 1/2 * globalAlignment.x * (dimensions.x - newWidth), center.y⟩
        { acc with common.bounds := ⟨center, ⟨newWidth, dimensions.y⟩⟩ }
      else acc
    if hasHeight then
      let newHeight := child.Value (1 + hasDimensions.toNat)
      let center := acc1.common.bounds.Center
      let dimensions := acc1.common.bounds.Dimensions
      let center : Point :=
        if acc1.isCentered then center
        else ⟨center.x, center.y + 1/2 * globalAlignment.y * (dimensions.y - newHeight)⟩
      { acc1 with common.bounds := ⟨center, ⟨dimensions.x, newHeight⟩⟩ }
    else acc1
  else if child.Token 0 = "center" ∧ 3 ≤ child.Size then
    { acc with isCentered := true,
               common.bounds := ⟨⟨child.Value 1, child.Value 2⟩, acc.common.bounds.Dimensions⟩ }
  else if child.Token 0 = "from" ∧ 6 ≤ child.Size ∧ child.Token 3 = "to" then
    { acc with common.bounds :=
        (Rectangle.WithCorners ⟨child.Value 1, child.Value 2⟩ ⟨child.Value 4, child.Value 5⟩) }
  else if child.Token 0 = "from" ∧ 3 ≤ child.Size then
    { acc with common.bounds :=
        ⟨(⟨child.Value 1, child.Value 2⟩ : Point) -
            (1/2 : ℚ) • (acc.common.alignment * acc.common.bounds.Dimensions),
          acc.common.bounds.Dimensions⟩ }
  else if child.Token 0 = "pad" ∧ 3 ≤ child.Size then
    { acc with common.padding := ⟨child.Value 1, child.Value 2⟩ }
  else
    match parseLineFn child acc.kind with
    | some k => { acc with kind := k }
    | none => acc

/-- Source: `Element::Load`: fold the loop body over the node's child lines.
`isCentered` starts true iff the global alignment vector is zero
(`!globalAlignment`). -/
def Element.Load {σ : Type} (globalAlignment : Point)
    (parseLineFn : DataLine → σ → Option σ)
    (common : ElementCommon) (kind : σ) (node : DataNode) : LoadAcc σ :=
  node.children.foldl (loadLine globalAlignment parseLineFn)
    ⟨common, kind, globalAlignment.isZero⟩

/-- One primitive draw call issued to the external shader/renderer
collaborators; the draw routines of this code produce a list of these. -/
inductive DrawCall
  | sprite (s : Sprite) (center : Point) (zoom : ℚ)
  | outline (s : Sprite) (center : Point) (dims : Point) (color : Color)
      (unit : Point) (frame : Int)
  | text (str : String) (pos : Point) (color : Color) (fontSize : ℚ)
  | ring (center : Point) (radius : ℚ) (strokeWidth : ℚ) (value : ℚ)
      (color : Color) (segments : ℚ)
  | line (a : Point) (b : Point) (strokeWidth : ℚ) (color : Color)
deriving DecidableEq, Repr

/-- Source: `Element::Place` in the base class: registers nothing. -/
def Element.Place (_box : Rectangle) : List (Rectangle × Char) := []

/-- Source: `Element::NativeDimensions` in the base class: the bounds size. -/
def Element.NativeDimensions (c : ElementCommon) (_info : Information)
    (_state : Nat) : Point :=
  c.bounds.Dimensions

/-- The observable effects of one `Element::DrawAt` call on a visible
element: the absolute box, the computed activation state, the clickable
zones registered on the panel, the final draw rectangle, and the draw
calls issued.  `DrawAt` is `const` in the source: it mutates no element
field, so it is a pure function of the element here. -/
structure DrawEffects where
  box : Rectangle
  state : Nat
  zones : List (Rectangle × Char)
  rect : Rectangle
  draws : List DrawCall
deriving Repr

/-- Source: `Element::DrawAt`, parameterized over the subclass's virtual
methods (`NativeDimensions`, `Draw`, `Place`).  `mouse` is the value of
`UI::GetMouse()` and `panel` tells whether a panel pointer was supplied.
Returns `none` when the visibility condition fails (the early return). -/
def Element.DrawAt (c : ElementCommon)
    (nativeDims : Information → Nat → Point)
    (drawFn : Rectangle → Information → Nat → List DrawCall)
    (placeFn : Rectangle → List (Rectangle × Char))
    (anchor : Point) (info : Information) (mouse : Point) (panel : Bool) :
    Option DrawEffects :=
  if ¬ info.HasCondition c.visibleIf then none
  else
    let box := c.bounds + anchor
    let state0 : Nat := if info.HasCondition c.activeIf then 1 else 0
    let state := state0 + (if state0 ≠ 0 ∧ box.Contains mouse then 1 else 0)
    let zones := if panel then placeFn box else []
    let nd := nativeDims info state
    let slack := (1/2 : ℚ) • (c.bounds.Dimensions - nd) - c.padding
    let rect : Rectangle := ⟨c.bounds.Center + anchor + c.alignment * slack, nd⟩
    some ⟨box, state, zones, rect, drawFn rect info state⟩

/-- The subclass fields of `ImageElement`.  The three sprite slots are
indexed by the state constants `INACTIVE = 0`, `ACTIVE = 1`,
`HOVER = 2`. -/
structure ImageKind where
  sprite0 : Option Sprite := none
  sprite1 : Option Sprite := none
  sprite2 : Option Sprite := none
  name : String := ""
  isOutline : Bool := false
  isColored : Bool := false
deriving DecidableEq, Repr

instance : Inhabited ImageKind := ⟨{}⟩

/-- The `sprite[state]` array access. -/
def ImageKind.spriteAt (k : ImageKind) (state : Nat) : Option Sprite :=
  match state with
  | 0 => k.sprite0
  | 1 => k.sprite1
  | 2 => k.sprite2
  | _ => none

/-- Source: `ImageElement::ParseLine`: "inactive" and "hover" sprites only apply
to non-dynamic images (empty `name`); "colored" only to outlines. -/
def ImageElement.ParseLine (ext : Externals) (node : DataLine) (k : ImageKind) :
    Option ImageKind :=
  if node.Token 0 = "inactive" ∧ 2 ≤ node.Size ∧ k.name = "" then
    some { k with sprite0 := some (ext.spriteSet (node.Token 1)) }
  else if node.Token 0 = "hover" ∧ 2 ≤ node.Size ∧ k.name = "" then
    some { k with sprite2 := some (ext.spriteSet (node.Token 1)) }
  else if k.isOutline ∧ node.Token 0 = "colored" then
    some { k with isColored := true }
  else
    none

/-- The final step of the `ImageElement` constructor: if an active-state
sprite is set, fill any undefined state sprite with it. -/
def ImageElement.FillDefaults (k : ImageKind) : ImageKind :=
  match k.sprite1 with
  | some s => { k with sprite0 := some (k.sprite0.getD s),
                       sprite2 := some (k.sprite2.getD s) }
  | none => k

/-- The `ImageElement` constructor: a "sprite" node looks the sprite up
statically; "image"/"outline" record the dynamic name instead.  Then the
base `Load` runs (with the image `ParseLine`), and undefined state
sprites are filled from the active one. -/
def ImageElement.Construct (ext : Externals) (node : DataNode)
    (globalAlignment : Point) : ElementCommon × ImageKind :=
  if node.Size < 2 then ({}, {})
  else
    let k0 : ImageKind := { isOutline := node.Token 0 = "outline" }
    let k1 :=
      if node.Token 0 = "sprite" then
        { k0 with sprite1 := some (ext.spriteSet (node.Token 1)) }
      else
        { k0 with name := node.Token 1 }
    let acc := Element.Load globalAlignment (ImageElement.ParseLine ext) {} k1 node
    (acc.common, ImageElement.FillDefaults acc.kind)

/-- Source: `ImageElement::GetSprite`: static images read the state-indexed
slot, dynamic ones ask the provider. -/
def ImageElement.GetSprite (k : ImageKind) (info : Information) (state : Nat) :
    Option Sprite :=
  if k.name = "" then k.spriteAt state else info.sprites k.name

/-- Source: `ImageElement::NativeDimensions`: the sprite's pixel size, scaled
uniformly by the more constraining bounds axis; a zero bounds axis is
unconstrained and contributes the large sentinel scale 1000. -/
def ImageElement.NativeDimensions (c : ElementCommon) (k : ImageKind)
    (info : Information) (state : Nat) : Point :=
  match ImageElement.GetSprite k info state with
  | none => ⟨0, 0⟩
  | some s =>
    if s.width = 0 ∨ s.height = 0 then ⟨0, 0⟩
    else
      let size : Point := ⟨s.width, s.height⟩
      if c.bounds.Dimensions.isZero then size
      else
        let xScale := if c.bounds.Width = 0 then 1000 else c.bounds.Width / size.x
        let yScale := if c.bounds.Height = 0 then 1000 else c.bounds.Height / size.y
        min xScale yScale • size

/-- Source: `ImageElement::Draw`: a no-op for a missing or zero-sized sprite;
otherwise one outline or sprite draw call. -/
def ImageElement.Draw (k : ImageKind) (rect : Rectangle) (info : Information)
    (state : Nat) : List DrawCall :=
  match ImageElement.GetSprite k info state with
  | none => []
  | some s =>
    if s.width = 0 ∨ s.height = 0 then []
    else if k.isOutline then
      [DrawCall.outline s rect.Center rect.Dimensions
        (if k.isColored then info.outlineColor else Color.grey 1 1)
        (info.spriteUnit k.name) (info.spriteFrame k.name)]
    else
      [DrawCall.sprite s rect.Center (rect.Width / s.width)]

/-- Source: `ImageElement::DrawAt` (the base `DrawAt` with the image virtuals;
images use the base `Place`, which registers nothing). -/
def ImageElement.DrawAt (c : ElementCommon) (k : ImageKind) (anchor : Point)
    (info : Information) (mouse : Point) (panel : Bool) : Option DrawEffects :=
  Element.DrawAt c (ImageElement.NativeDimensions c k) (ImageElement.Draw k)
    Element.Place anchor info mouse panel

/-- The subclass fields of `TextElement`.  The three color slots are
indexed like the sprite slots; `buttonKey` is the C++ `char`, with
`Char.ofNat 0` standing for the zero (no-button) character. -/
structure TextKind where
  color0 : Option Color := none
  color1 : Option Color := none
  color2 : Option Color := none
  str : String := ""
  isDynamic : Bool := false
  buttonKey : Char := Char.ofNat 0
  fontSize : ℚ := 0
deriving DecidableEq, Repr

instance : Inhabited TextKind := ⟨{}⟩

/-- The `color[state]` array access. -/
def TextKind.colorAt (k : TextKind) (state : Nat) : Option Color :=
  match state with
  | 0 => k.color0
  | 1 => k.color1
  | 2 => k.color2
  | _ => none

/-- Source: `TextElement::ParseLine`. -/
def TextElement.ParseLine (ext : Externals) (node : DataLine) (k : TextKind) :
    Option TextKind :=
  if node.Token 0 = "size" ∧ 2 ≤ node.Size then
    some { k with fontSize := node.Value 1 }
  else if node.Token 0 = "color" ∧ 2 ≤ node.Size then
    some { k with color1 := some (ext.colors (node.Token 1)) }
  else if node.Token 0 = "inactive" ∧ 2 ≤ node.Size then
    some { k with color0 := some (ext.colors (node.Token 1)) }
  else if node.Token 0 = "hover" ∧ 2 ≤ node.Size then
    some { k with color2 := some (ext.colors (node.Token 1)) }
  else
    none

/-- The color cascade at the end of the `TextElement` constructor. -/
def TextElement.FillColors (ext : Externals) (k : TextKind) : TextKind :=
  let k1 :=
    if k.color1.isNone ∧ k.buttonKey = Char.ofNat 0 then
      { k with color1 := some (ext.colors (if k.isDynamic then "bright" else "medium")) }
    else k
  match k1.color1 with
  | none =>
    { k1 with color1 := some (ext.colors "active"),
              color0 := some (k1.color0.getD (ext.colors "inactive")),
              color2 := some (k1.color2.getD (ext.colors "hover")) }
  | some c1 =>
    { k1 with color0 := some (k1.color0.getD c1),
              color2 := some (k1.color2.getD c1) }

/-- The `TextElement` constructor: "string" is dynamic; "button" takes its
key from the first character of its name token (and an optional label);
otherwise the label is the second token.  Then `Load` runs and the color
cascade fills unspecified state colors. -/
def TextElement.Construct (ext : Externals) (node : DataNode)
    (globalAlignment : Point) : ElementCommon × TextKind :=
  if node.Size < 2 then ({}, {})
  else
    let k0 : TextKind := { isDynamic := node.Token 0 = "string" }
    let k1 :=
      if node.Token 0 = "button" then
        { k0 with buttonKey := (node.Token 1).toList.headD (Char.ofNat 0),
                  str := if 3 ≤ node.Size then node.Token 2 else "" }
      else
        { k0 with str := node.Token 1 }
    let acc := Element.Load globalAlignment (TextElement.ParseLine ext) {} k1 node
    (acc.common, TextElement.FillColors ext acc.kind)

/-- Source: `TextElement::GetString`. -/
def TextElement.GetString (k : TextKind) (info : Information) : String :=
  if k.isDynamic then info.strings k.str else k.str

/-- Source: `TextElement::NativeDimensions`: the measured text extent. -/
def TextElement.NativeDimensions (ext : Externals) (k : TextKind)
    (info : Information) (_state : Nat) : Point :=
  ⟨ext.fontWidth k.fontSize (TextElement.GetString k info), ext.fontHeight k.fontSize⟩

/-- Source: `TextElement::Draw`: a no-op when the color for the current state is
unset (defense against partially loaded elements). -/
def TextElement.Draw (_ext : Externals) (k : TextKind) (rect : Rectangle)
    (info : Information) (state : Nat) : List DrawCall :=
  match k.colorAt state with
  | none => []
  | some col =>
    [DrawCall.text (TextElement.GetString k info) rect.TopLeft col k.fontSize]

/-- Source: `TextElement::Place`: only a button (nonzero key) registers a
clickable zone. -/
def TextElement.PlaceZones (k : TextKind) (box : Rectangle) :
    List (Rectangle × Char) :=
  if k.buttonKey ≠ Char.ofNat 0 then [(box, k.buttonKey)] else []

/-- Source: `TextElement::DrawAt`. -/
def TextElement.DrawAt (ext : Externals) (c : ElementCommon) (k : TextKind)
    (anchor : Point) (info : Information) (mouse : Point) (panel : Bool) :
    Option DrawEffects :=
  Element.DrawAt c (TextElement.NativeDimensions ext k) (TextElement.Draw ext k)
    (TextElement.PlaceZones k) anchor info mouse panel

/-- The subclass fields of `BarElement`. -/
structure BarKind where
  name : String := ""
  isRing : Bool := false
  color : Option Color := none
  width : ℚ := 0
deriving DecidableEq, Repr

instance : Inhabited BarKind := ⟨{}⟩

/-- Source: `BarElement::ParseLine`. -/
def BarElement.ParseLine (ext : Externals) (node : DataLine) (k : BarKind) :
    Option BarKind :=
  if node.Token 0 = "color" ∧ 2 ≤ node.Size then
    some { k with color := some (ext.colors (node.Token 1)) }
  else if node.Token 0 = "size" ∧ 2 ≤ node.Size then
    some { k with width := node.Value 1 }
  else
    none

/-- The `BarElement` constructor. -/
def BarElement.Construct (ext : Externals) (node : DataNode)
    (globalAlignment : Point) : ElementCommon × BarKind :=
  if node.Size < 2 then ({}, {})
  else
    let k1 : BarKind := { name := node.Token 1, isRing := node.Token 0 = "ring" }
    let acc := Element.Load globalAlignment (BarElement.ParseLine ext) {} k1 node
    let k2 := acc.kind
    (acc.common,
      if k2.color.isNone then { k2 with color := some (ext.colors "active") } else k2)

/-- The clamp at the top of `BarElement::Draw`: a provider segment count
of at most 1 is treated as no segmentation. -/
def BarElement.EffectiveSegments (s : ℚ) : ℚ :=
  if s ≤ 1 then 0 else s

/-- The `while(v < value)` loop of `BarElement::Draw`, producing the
(from, to) length-fraction pair of each filled run.  The C++ loop is
unbounded; `fuel` bounds the number of iterations modelled, and every
claim supplies enough fuel for the loop to reach its exit. -/
def barRunsAux (value filled empty : ℚ) : Nat → ℚ → List (ℚ × ℚ)
  | 0, _ => []
  | fuel + 1, v =>
    if v < value then
      (v, min (v + filled) value) :: barRunsAux value filled empty fuel (v + filled + empty)
    else []

/-- Source: `BarElement::Draw`.  `length` stands for `dimensions.Length()`, the
euclidean length of the rectangle's diagonal: it is irrational in
general, so the caller supplies it; every other quantity is computed
exactly as in the source. -/
def BarElement.Draw (k : BarKind) (rect : Rectangle) (info : Information)
    (length : ℚ) (fuel : Nat) : List DrawCall :=
  let value := info.barValue k.name
  let segments := BarElement.EffectiveSegments (info.barSegments k.name)
  match k.color with
  | none => []
  | some col =>
    if k.width = 0 ∨ value = 0 then []
    else if k.isRing then
      if rect.Width = 0 ∨ rect.Height = 0 then []
      else [DrawCall.ring rect.Center (1/2 * rect.Width) k.width value col
              (if 1 < segments then segments else 0)]
    else
      let start := rect.BottomRight
      let dims := -rect.Dimensions
      let empty := if segments = 0 then 0 else k.width / length
      let filled := if segments = 0 then 1 else (1 - empty * (segments - 1)) / segments
      (barRunsAux value filled empty fuel 0).map
        (fun r => DrawCall.line (start + r.1 • dims) (start + r.2 • dims) k.width col)

/-- Source: `BarElement::DrawAt` (the base `DrawAt` with the bar draw routine;
bars use the base `NativeDimensions` and `Place`).  `length` and `fuel`
are forwarded to `BarElement.Draw` (see there). -/
def BarElement.DrawAt (c : ElementCommon) (k : BarKind) (anchor : Point)
    (info : Information) (mouse : Point) (panel : Bool) (length : ℚ)
    (fuel : Nat) : Option DrawEffects :=
  Element.DrawAt c (Element.NativeDimensions c)
    (fun rect inf _st => BarElement.Draw k rect inf length fuel)
    Element.Place anchor info mouse panel

/-- The `Interface` container as far as the named-point queries are
concerned: the global alignment vector and the name → bounds map built
from the "point"/"box" nodes. -/
structure Interface where
  alignment : Point := ⟨0, 0⟩
  points : List (String × Rectangle) := []

/-- Source: `Interface::HasPoint`. -/
def Interface.HasPoint (i : Interface) (name : String) : Bool :=
  (i.points.lookup name).isSome

/-- Source: `Interface::GetPoint`: the stored point's center plus the global
anchor offset `0.5 * Screen::Dimensions() * alignment` (the screen
dimensions are supplied by the caller since `Screen` is external); the
zero point when the name is absent. -/
def Interface.GetPoint (i : Interface) (screen : Point) (name : String) : Point :=
  match i.points.lookup name with
  | none => ⟨0, 0⟩
  | some r => r.Center + (1/2 : ℚ) • screen * i.alignment

/-- Source: `Interface::GetSize`: the stored point's dimensions; the zero point
when the name is absent. -/
def Interface.GetSize (i : Interface) (_screen : Point) (name : String) : Point :=
  match i.points.lookup name with
  | none => ⟨0, 0⟩
  | some r => r.Dimensions

/-- Source: `Interface::GetBox`: the stored rectangle translated by the global
anchor offset; the default rectangle when the name is absent. -/
def Interface.GetBox (i : Interface) (screen : Point) (name : String) : Rectangle :=
  match i.points.lookup name with
  | none => ⟨⟨0, 0⟩, ⟨0, 0⟩⟩
  | some r => r + (1/2 : ℚ) • screen * i.alignment

/-- A concrete runtime provider used by the concrete instances below:
every condition except "off" holds, the bar value is 1/2 and the segment
count 2. -/
def sampleInfo : Information where
  conditions := fun s => s != "off"
  barValue := fun _ => 1/2
  barSegments := fun _ => 2
  strings := fun s => s
  sprites := fun _ => none
  spriteUnit := fun _ => ⟨0, 0⟩
  spriteFrame := fun _ => 0
  outlineColor := ⟨1, 1, 1, 1⟩

/-- Concrete registries used by the concrete instances below. -/
def sampleExt : Externals where
  spriteSet := fun _ => ⟨32, 16⟩
  colors := fun _ => ⟨1, 0, 0, 1⟩
  fontWidth := fun _ s => (s.length : ℚ)
  fontHeight := fun _ => 10
  mouse := ⟨0, 0⟩
  screen := ⟨200, 100⟩

/-! ## Theorems -/

theorem Point.add_def (p q : Point) : p + q = ⟨p.x + q.x, p.y + q.y⟩ := rfl

theorem Point.sub_def (p q : Point) : p - q = ⟨p.x - q.x, p.y - q.y⟩ := rfl

theorem Point.neg_def (p : Point) : -p = ⟨-p.x, -p.y⟩ := rfl

theorem Point.mul_def (p q : Point) : p * q = ⟨p.x * q.x, p.y * q.y⟩ := rfl

theorem Point.smul_def (s : ℚ) (p : Point) : s • p = ⟨s * p.x, s * p.y⟩ := rfl

theorem Rectangle.add_point_def (r : Rectangle) (p : Point) :
    r + p = ⟨r.center + p, r.dimensions⟩ := rfl

/-- C7: alignment token parsing is order-independent across different
axes and a later keyword on the same axis overrides an earlier one: each
axis of the result is the last matching keyword on that axis (so "left
top" and "top left" both yield (-1,-1), "left right" yields (+1,0)); an
axis with no keyword keeps its starting value (0 for elements); each
unrecognized token only adds one trace and leaves the vector
unchanged. -/
theorem parseAlignment_axis_order_free :
    (∀ (tokens : List String) (a : Point),
        ParseAlignment tokens a =
          (⟨lastAlignX tokens a.x, lastAlignY tokens a.y⟩, alignTraceCount tokens)) ∧
    (ParseAlignment ["left", "top"] ⟨0, 0⟩).1 = ⟨-1, -1⟩ ∧
    (ParseAlignment ["top", "left"] ⟨0, 0⟩).1 = ⟨-1, -1⟩ ∧
    (ParseAlignment ["left", "right"] ⟨0, 0⟩).1 = ⟨1, 0⟩ ∧
    ParseAlignment ["sideways", "top"] ⟨0, 0⟩ = (⟨0, -1⟩, 1) := by
  have aux : ∀ (tokens : List String) (a : Point) (n : Nat),
      tokens.foldl parseAlignStep (a, n) =
        (⟨lastAlignX tokens a.x, lastAlignY tokens a.y⟩, n + alignTraceCount tokens) := by
    intro tokens
    induction tokens with
    | nil => intro a n; simp [lastAlignX, lastAlignY, alignTraceCount]
    | cons t ts ih =>
      intro a n
      by_cases h1 : t = "left"
      · simp [parseAlignStep, lastAlignX, lastAlignY, alignTraceCount, h1, ih]
      · by_cases h2 : t = "top"
        · simp [parseAlignStep, lastAlignX, lastAlignY, alignTraceCount, h1, h2, ih]
        · by_cases h3 : t = "right"
          · simp [parseAlignStep, lastAlignX, lastAlignY, alignTraceCount, h1, h2, h3, ih]
          · by_cases h4 : t = "bottom"
            · simp [parseAlignStep, lastAlignX, lastAlignY, alignTraceCount,
                h1, h2, h3, h4, ih]
            · simp [parseAlignStep, lastAlignX, lastAlignY, alignTraceCount,
                h1, h2, h3, h4, ih]
              omega
  refine ⟨fun tokens a => by simpa [ParseAlignment] using aux tokens a 0,
    by decide, by decide, by decide, by decide⟩

/-- C1: geometry resolution starts with `isCentered` true iff the
global alignment is (0,0); only a "center" directive can turn it on; and
every "width"/"height"/"dimensions" directive shifts the center on each
resized axis by `0.5 * globalAlignmentAxis * (oldDimension -
newDimension)` (computed from the old dimensions, i.e. before the new
dimension is applied) when the element is not centered, and leaves the
center unchanged when it is centered. -/
theorem load_resize_alignment_shift :
    (∀ (σ : Type) (pl : DataLine → σ → Option σ) (ga : Point) (c : ElementCommon)
        (k : σ) (node : DataNode), node.children = [] →
        Element.Load ga pl c k node = ⟨c, k, decide (ga.x = 0 ∧ ga.y = 0)⟩) ∧
    (∀ (σ : Type) (pl : DataLine → σ → Option σ) (ga : Point) (acc : LoadAcc σ)
        (child : DataLine),
        (loadLine ga pl acc child).isCentered =
          (acc.isCentered || decide (child.Token 0 = "center" ∧ 3 ≤ child.Size))) ∧
    (∀ (σ : Type) (pl : DataLine → σ → Option σ) (ga : Point) (acc : LoadAcc σ)
        (child : DataLine), child.Token 0 = "width" → 2 ≤ child.Size →
        (loadLine ga pl acc child).common.bounds =
          ⟨⟨(if acc.isCentered then acc.common.bounds.center.x
              else acc.common.bounds.center.x +
                1/2 * ga.x * (acc.common.bounds.dimensions.x - child.Value 1)),
            acc.common.bounds.center.y⟩,
           ⟨child.Value 1, acc.common.bounds.dimensions.y⟩⟩) ∧
    (∀ (σ : Type) (pl : DataLine → σ → Option σ) (ga : Point) (acc : LoadAcc σ)
        (child : DataLine), child.Token 0 = "height" → 2 ≤ child.Size →
        (loadLine ga pl acc child).common.bounds =
          ⟨⟨acc.common.bounds.center.x,
            (if acc.isCentered then acc.common.bounds.center.y
              else acc.common.bounds.center.y +
                1/2 * ga.y * (acc.common.bounds.dimensions.y - child.Value 1))⟩,
           ⟨acc.common.bounds.dimensions.x, child.Value 1⟩⟩) ∧
    (∀ (σ : Type) (pl : DataLine → σ → Option σ) (ga : Point) (acc : LoadAcc σ)
        (child : DataLine), child.Token 0 = "dimensions" → 3 ≤ child.Size →
        (loadLine ga pl acc child).common.bounds =
          ⟨⟨(if acc.isCentered then acc.common.bounds.center.x
              else acc.common.bounds.center.x +
                1/2 * ga.x * (acc.common.bounds.dimensions.x - child.Value 1)),
            (if acc.isCentered then acc.common.bounds.center.y
              else acc.common.bounds.center.y +
                1/2 * ga.y * (acc.common.bounds.dimensions.y - child.Value 2))⟩,
           ⟨child.Value 1, child.Value 2⟩⟩) := by
  refine ⟨?_, ?_, ?_, ?_, ?_⟩
  · intro σ pl ga c k node h
    simp [Element.Load, h, Point.isZero]
  · intro σ pl ga acc child
    by_cases hA : child.Token 0 = "align" ∧ 1 < child.Size
    · simp [loadLine, hA, hA.1]
    · by_cases hD : child.Token 0 = "dimensions" ∧ 3 ≤ child.Size
      · simp [loadLine, hD.1, hD.2, hA]
      · by_cases hW : child.Token 0 = "width" ∧ 2 ≤ child.Size
        · simp [loadLine, hW.1, hW.2, hA]
        · by_cases hH : child.Token 0 = "height" ∧ 2 ≤ child.Size
          · simp [loadLine, hH.1, hH.2, hA]
          · by_cases hC : child.Token 0 = "center" ∧ 3 ≤ child.Size
            · simp [loadLine, hC, hC.1, hC.2, hA, hD, hW, hH]
            · by_cases hFT : child.Token 0 = "from" ∧ 6 ≤ child.Size ∧ child.Token 3 = "to"
              · simp [loadLine, hFT, hFT.1, hA, hD, hW, hH, hC]
              · by_cases hF : child.Token 0 = "from" ∧ 3 ≤ child.Size
                · simp [loadLine, hF, hF.1, hA, hD, hW, hH, hC, hFT]
                  split <;> rfl
                · by_cases hP : child.Token 0 = "pad" ∧ 3 ≤ child.Size
                  · simp [loadLine, hP, hP.1, hA, hD, hW, hH, hC, hFT, hF]
                  · cases hpl : pl child acc.kind <;>
                      simp [loadLine, hA, hD, hW, hH, hC, hFT, hF, hP, hpl]
  · intro σ pl ga acc child htok hsize
    have hne1 : ¬ (child.Token 0 = "dimensions" ∧ 3 ≤ child.Size) := by simp [htok]
    have hal : ¬ (child.Token 0 = "align" ∧ 1 < child.Size) := by simp [htok]
    by_cases hc : acc.isCentered <;>
      simp [loadLine, hne1, hal, htok, hsize, hc, Rectangle.Center, Rectangle.Dimensions]
  · intro σ pl ga acc child htok hsize
    have hne1 : ¬ (child.Token 0 = "dimensions" ∧ 3 ≤ child.Size) := by simp [htok]
    have hal : ¬ (child.Token 0 = "align" ∧ 1 < child.Size) := by simp [htok]
    by_cases hc : acc.isCentered <;>
      simp [loadLine, hne1, hal, htok, hsize, hc, Rectangle.Center, Rectangle.Dimensions]
  · intro σ pl ga acc child htok hsize
    have hal : ¬ (child.Token 0 = "align" ∧ 1 < child.Size) := by simp [htok]
    by_cases hc : acc.isCentered <;>
      simp [loadLine, hal, htok, hsize, hc, Rectangle.Center, Rectangle.Dimensions]

/-- Witness for C1: a width directive under global alignment (-1,0) on a
non-centered element keeps the left edge fixed (center moves from 0 to
-2 when the width shrinks from 10 to 6); a dimensions directive on a
centered element keeps the center at (3,4). -/
theorem load_resize_alignment_shift_witness :
    (loadLine (⟨-1, 0⟩ : Point) (fun (_ : DataLine) (_ : Unit) => none)
        ⟨{ bounds := ⟨⟨0, 0⟩, ⟨10, 4⟩⟩ }, (), false⟩
        ⟨["width", "6"], [0, 6]⟩).common.bounds = ⟨⟨-2, 0⟩, ⟨6, 4⟩⟩ ∧
    (loadLine (⟨-1, 0⟩ : Point) (fun (_ : DataLine) (_ : Unit) => none)
        ⟨{ bounds := ⟨⟨3, 4⟩, ⟨10, 8⟩⟩ }, (), true⟩
        ⟨["dimensions", "6", "2"], [0, 6, 2]⟩).common.bounds = ⟨⟨3, 4⟩, ⟨6, 2⟩⟩ := by
  constructor
  · have h := load_resize_alignment_shift.2.2.1 Unit (fun _ _ => none) ⟨-1, 0⟩
      ⟨{ bounds := ⟨⟨0, 0⟩, ⟨10, 4⟩⟩ }, (), false⟩ ⟨["width", "6"], [0, 6]⟩
      (by decide) (by decide)
    rw [h]; norm_num [DataLine.Value]
  · have h := load_resize_alignment_shift.2.2.2.2 Unit (fun _ _ => none) ⟨-1, 0⟩
      ⟨{ bounds := ⟨⟨3, 4⟩, ⟨10, 8⟩⟩ }, (), true⟩ ⟨["dimensions", "6", "2"], [0, 6, 2]⟩
      (by decide) (by decide)
    rw [h]; norm_num [DataLine.Value]

/-- C2: for a visible element, the activation state is exactly 0 when
the activation condition name is set and evaluates false in the
provider, otherwise 1, promoted to 2 if and only if the pointer lies
inside the element's absolute box `bounds + anchor`; and state 2 is
never produced when the activation condition evaluates false. -/
theorem drawAt_state_model :
    ∀ (c : ElementCommon) (nd : Information → Nat → Point)
      (drawFn : Rectangle → Information → Nat → List DrawCall)
      (placeFn : Rectangle → List (Rectangle × Char))
      (anchor : Point) (info : Information) (mouse : Point) (panel : Bool),
      info.HasCondition c.visibleIf = true →
      ((Element.DrawAt c nd drawFn placeFn anchor info mouse panel).map DrawEffects.state =
          some (if c.activeIf ≠ "" ∧ info.conditions c.activeIf = false then 0
                else if (c.bounds + anchor).Contains mouse then 2 else 1) ∧
        ∀ e, Element.DrawAt c nd drawFn placeFn anchor info mouse panel = some e →
          e.state = 2 → info.HasCondition c.activeIf = true) := by
  intro c nd drawFn placeFn anchor info mouse panel hvis
  by_cases hA : info.HasCondition c.activeIf = true
  · have hcond : ¬ (c.activeIf ≠ "" ∧ info.conditions c.activeIf = false) := by
      simp [Information.HasCondition] at hA
      rcases hA with h | h
      · simp [h]
      · simp [h]
    by_cases hm : (c.bounds + anchor).Contains mouse = true
    · simp [Element.DrawAt, hvis, hA, hcond, hm]
    · simp [Element.DrawAt, hvis, hA, hcond, hm]
  · have hcond : c.activeIf ≠ "" ∧ info.conditions c.activeIf = false := by
      simp [Information.HasCondition] at hA
      exact ⟨hA.1, hA.2⟩
    constructor
    · simp [Element.DrawAt, hvis, hA, hcond]
    · intro e he
      simp [Element.DrawAt, hvis, hA] at he
      intro hst
      rw [← he] at hst
      simp at hst

/-- C3: for a visible element, the final draw rectangle has center
`bounds.center + anchor + alignment * slack` with
`slack = 0.5*(bounds.dimensions - nativeDimensions) - padding`, and size
`nativeDimensions`, where `nativeDimensions` is the kind's virtual
`NativeDimensions` at the computed state. -/
theorem drawAt_rect_model :
    ∀ (c : ElementCommon) (nd : Information → Nat → Point)
      (drawFn : Rectangle → Information → Nat → List DrawCall)
      (placeFn : Rectangle → List (Rectangle × Char))
      (anchor : Point) (info : Information) (mouse : Point) (panel : Bool)
      (e : DrawEffects),
      Element.DrawAt c nd drawFn placeFn anchor info mouse panel = some e →
      e.rect = ⟨c.bounds.Center + anchor +
          c.alignment * ((1/2 : ℚ) • (c.bounds.Dimensions - nd info e.state) - c.padding),
        nd info e.state⟩ := by
  intro c nd drawFn placeFn anchor info mouse panel e he
  by_cases hvis : info.HasCondition c.visibleIf = true
  · simp [Element.DrawAt, hvis] at he
    subst he
    norm_num
  · simp [Element.DrawAt, hvis] at he

/-- Witness for C2: a visible element whose activation condition "on"
holds, with the pointer inside its absolute box, reports state 2. -/
theorem drawAt_state_model_witness :
    (Element.DrawAt { bounds := ⟨⟨0, 0⟩, ⟨4, 4⟩⟩, activeIf := "on" }
        (fun _ _ => ⟨0, 0⟩) (fun _ _ _ => []) (fun _ => [])
        ⟨10, 10⟩ sampleInfo ⟨10, 10⟩ false).map DrawEffects.state = some 2 := by
  have h := (drawAt_state_model { bounds := ⟨⟨0, 0⟩, ⟨4, 4⟩⟩, activeIf := "on" }
      (fun _ _ => ⟨0, 0⟩) (fun _ _ _ => []) (fun _ => [])
      ⟨10, 10⟩ sampleInfo ⟨10, 10⟩ false (by decide)).1
  rw [h]
  norm_num [sampleInfo, Rectangle.Contains, Rectangle.add_point_def, Point.add_def]
  decide

/-- Witness for C3: for a default element with native size (2,2), zero
alignment and padding, the final draw rectangle is centered on the
anchor with the native size. -/
theorem drawAt_rect_model_witness :
    (Element.DrawAt ({} : ElementCommon) (fun _ _ => ⟨2, 2⟩) (fun _ _ _ => [])
        (fun _ => []) ⟨0, 0⟩ sampleInfo ⟨5, 5⟩ false).map DrawEffects.rect =
      some ⟨⟨0, 0⟩, ⟨2, 2⟩⟩ := by
  have h0 : Element.DrawAt ({} : ElementCommon) (fun _ _ => ⟨2, 2⟩)
      (fun _ _ _ => []) (fun _ => []) ⟨0, 0⟩ sampleInfo ⟨5, 5⟩ false =
      some ⟨⟨⟨0, 0⟩, ⟨0, 0⟩⟩, 1, [], ⟨⟨0, 0⟩, ⟨2, 2⟩⟩, []⟩ := by
    norm_num [Element.DrawAt, Information.HasCondition, sampleInfo,
      Rectangle.Contains, Rectangle.add_point_def, Point.add_def, Point.sub_def,
      Point.mul_def, Point.smul_def, Rectangle.Center, Rectangle.Dimensions]
  have h := drawAt_rect_model ({} : ElementCommon) (fun _ _ => ⟨2, 2⟩)
      (fun _ _ _ => []) (fun _ => []) ⟨0, 0⟩ sampleInfo ⟨5, 5⟩ false _ h0
  have hrect : (⟨⟨⟨0, 0⟩, ⟨0, 0⟩⟩, 1, [], ⟨⟨0, 0⟩, ⟨2, 2⟩⟩, []⟩ : DrawEffects).rect =
      ⟨⟨0, 0⟩, ⟨2, 2⟩⟩ := by
    rw [h]
    norm_num [Rectangle.Center, Rectangle.Dimensions, Point.add_def, Point.sub_def,
      Point.mul_def, Point.smul_def]
  rw [h0, Option.map_some', hrect]

/-- C8: every kind-specific draw routine is a silent no-op when a
required resource is missing: a text element whose color for the current
state is unset, a bar/ring element whose color is unset or whose stroke
width or provider value is zero, and an image element whose sprite is
missing or has zero width or height, all issue no draw call (and, being
total functions, cannot fault). -/
theorem draw_missing_resource_noop :
    (∀ (ext : Externals) (k : TextKind) (rect : Rectangle) (info : Information)
        (state : Nat), k.colorAt state = none →
        TextElement.Draw ext k rect info state = []) ∧
    (∀ (k : BarKind) (rect : Rectangle) (info : Information) (length : ℚ)
        (fuel : Nat), k.color = none ∨ k.width = 0 ∨ info.barValue k.name = 0 →
        BarElement.Draw k rect info length fuel = []) ∧
    (∀ (k : ImageKind) (rect : Rectangle) (info : Information) (state : Nat),
        (∀ s, ImageElement.GetSprite k info state = some s →
          s.width = 0 ∨ s.height = 0) →
        ImageElement.Draw k rect info state = []) := by
  refine ⟨?_, ?_, ?_⟩
  · intro ext k rect info state h
    simp [TextElement.Draw, h]
  · intro k rect info length fuel h
    rcases h with h | h | h
    · simp [BarElement.Draw, h]
    · cases hc : k.color <;> simp [BarElement.Draw, hc, h]
    · cases hc : k.color <;> simp [BarElement.Draw, hc, h]
  · intro k rect info state h
    cases hs : ImageElement.GetSprite k info state with
    | none => simp [ImageElement.Draw, hs]
    | some s => simp [ImageElement.Draw, hs, h s hs]

/-- Witness for C8: a fully-default text element (no color loaded), a
bar whose provider value is zero, and an image element with no sprite
each draw nothing. -/
theorem draw_missing_resource_noop_witness :
    TextElement.Draw sampleExt {} ⟨⟨0, 0⟩, ⟨4, 4⟩⟩ sampleInfo 1 = [] ∧
    BarElement.Draw { name := "b", color := some ⟨1, 0, 0, 1⟩, width := 1 }
      ⟨⟨0, 0⟩, ⟨6, 8⟩⟩
      { sampleInfo with barValue := fun _ => 0 } 10 100 = [] ∧
    ImageElement.Draw {} ⟨⟨0, 0⟩, ⟨4, 4⟩⟩ sampleInfo 1 = [] := by
  refine ⟨?_, ?_, ?_⟩
  · exact draw_missing_resource_noop.1 sampleExt {} ⟨⟨0, 0⟩, ⟨4, 4⟩⟩ sampleInfo 1 rfl
  · exact draw_missing_resource_noop.2.1 _ _ _ 10 100 (Or.inr (Or.inr rfl))
  · exact draw_missing_resource_noop.2.2 {} ⟨⟨0, 0⟩, ⟨4, 4⟩⟩ sampleInfo 1
      (by intro s hs; simp [ImageElement.GetSprite, ImageKind.spriteAt] at hs)

/-- C9: an element whose visibility condition is set and false produces
no effects at all (no zone, no placement, no draw call, and — `DrawAt`
being a pure function here, as it is `const` in the source — no element
state change); a visible element with a panel computes its clickable
zones from `box = bounds + anchor` alone, the same for every activation
state; the base `Place` used by image and bar elements registers
nothing, and a text element registers its key iff it is a button
(nonzero key). -/
theorem drawAt_place_model :
    (∀ (c : ElementCommon) (nd : Information → Nat → Point)
        (drawFn : Rectangle → Information → Nat → List DrawCall)
        (placeFn : Rectangle → List (Rectangle × Char))
        (anchor : Point) (info : Information) (mouse : Point) (panel : Bool),
        info.HasCondition c.visibleIf = false →
        Element.DrawAt c nd drawFn placeFn anchor info mouse panel = none) ∧
    (∀ (c : ElementCommon) (nd : Information → Nat → Point)
        (drawFn : Rectangle → Information → Nat → List DrawCall)
        (placeFn : Rectangle → List (Rectangle × Char))
        (anchor : Point) (info : Information) (mouse : Point) (panel : Bool),
        info.HasCondition c.visibleIf = true →
        (Element.DrawAt c nd drawFn placeFn anchor info mouse panel).map
            DrawEffects.zones =
          some (if panel then placeFn (c.bounds + anchor) else [])) ∧
    (∀ box : Rectangle, Element.Place box = []) ∧
    (∀ (k : TextKind) (box : Rectangle),
        TextElement.PlaceZones k box =
          (if k.buttonKey = Char.ofNat 0 then [] else [(box, k.buttonKey)])) ∧
    (∀ (c : ElementCommon) (k : ImageKind) (anchor : Point) (info : Information)
        (mouse : Point) (panel : Bool) (e : DrawEffects),
        ImageElement.DrawAt c k anchor info mouse panel = some e → e.zones = []) ∧
    (∀ (c : ElementCommon) (k : BarKind) (anchor : Point) (info : Information)
        (mouse : Point) (panel : Bool) (length : ℚ) (fuel : Nat) (e : DrawEffects),
        BarElement.DrawAt c k anchor info mouse panel length fuel = some e →
        e.zones = []) := by
  refine ⟨?_, ?_, ?_, ?_, ?_, ?_⟩
  · intro c nd drawFn placeFn anchor info mouse panel h
    simp [Element.DrawAt, h]
  · intro c nd drawFn placeFn anchor info mouse panel h
    simp [Element.DrawAt, h]
  · intro box
    rfl
  · intro k box
    by_cases hb : k.buttonKey = Char.ofNat 0 <;> simp [TextElement.PlaceZones, hb]
  · intro c k anchor info mouse panel e he
    by_cases hvis : info.HasCondition c.visibleIf = true
    · simp [ImageElement.DrawAt, Element.DrawAt, hvis, Element.Place] at he
      rw [← he]
    · simp [ImageElement.DrawAt, Element.DrawAt, hvis] at he
  · intro c k anchor info mouse panel length fuel e he
    by_cases hvis : info.HasCondition c.visibleIf = true
    · simp [BarElement.DrawAt, Element.DrawAt, hvis, Element.Place] at he
      rw [← he]
    · simp [BarElement.DrawAt, Element.DrawAt, hvis] at he

/-- Witness for C9: an element gated on the false condition "off" draws
nothing, and a visible button element with a panel registers exactly its
key zone. -/
theorem drawAt_place_model_witness :
    Element.DrawAt { visibleIf := "off" } (fun _ _ => ⟨0, 0⟩) (fun _ _ _ => [])
        (fun _ => []) ⟨0, 0⟩ sampleInfo ⟨0, 0⟩ true = none ∧
    (Element.DrawAt {} (fun _ _ => ⟨0, 0⟩) (fun _ _ _ => [])
        (TextElement.PlaceZones { buttonKey := 'B' })
        ⟨7, 9⟩ sampleInfo ⟨0, 0⟩ true).map DrawEffects.zones =
      some [(⟨⟨7, 9⟩, ⟨0, 0⟩⟩, 'B')] := by
  constructor
  · exact drawAt_place_model.1 _ _ _ _ _ _ _ _ (by decide)
  · have h := drawAt_place_model.2.1 {} (fun _ _ => ⟨0, 0⟩) (fun _ _ _ => [])
      (TextElement.PlaceZones { buttonKey := 'B' }) ⟨7, 9⟩ sampleInfo ⟨0, 0⟩ true
      (by decide)
    rw [h]
    rw [drawAt_place_model.2.2.2.1]
    norm_num [Rectangle.add_point_def, Point.add_def]
    decide

/-- C10: the image constructor ends by filling state sprites: whenever
the active-state sprite is set, a state whose sprite was not configured
receives the active sprite (and a configured one is kept), so the
inactive and hover slots are never a different-from-active `none`;
the constructor's kind state is exactly this fill applied to the load
result; and "inactive"/"hover" sprite lines are accepted by
`ImageElement::ParseLine` exactly when the dynamic name is empty, being
rejected as unrecognized for dynamic-name images. -/
theorem image_sprite_state_defaults :
    (∀ (k : ImageKind) (s : Sprite), k.sprite1 = some s →
        (ImageElement.FillDefaults k).sprite0 = some (k.sprite0.getD s) ∧
        (ImageElement.FillDefaults k).sprite1 = some s ∧
        (ImageElement.FillDefaults k).sprite2 = some (k.sprite2.getD s) ∧
        ((ImageElement.FillDefaults k).spriteAt 0).isSome = true ∧
        ((ImageElement.FillDefaults k).spriteAt 2).isSome = true) ∧
    (∀ (ext : Externals) (node : DataNode) (ga : Point), 2 ≤ node.Size →
        (ImageElement.Construct ext node ga).2 =
          ImageElement.FillDefaults
            (Element.Load ga (ImageElement.ParseLine ext) {}
              (if node.Token 0 = "sprite" then
                { isOutline := node.Token 0 = "outline",
                  sprite1 := some (ext.spriteSet (node.Token 1)) }
               else
                { isOutline := node.Token 0 = "outline", name := node.Token 1 })
              node).kind) ∧
    (∀ (ext : Externals) (node : DataLine) (k : ImageKind),
        k.name ≠ "" → node.Token 0 = "inactive" ∨ node.Token 0 = "hover" →
        ImageElement.ParseLine ext node k = none) ∧
    (∀ (ext : Externals) (node : DataLine) (k : ImageKind),
        k.name = "" → node.Token 0 = "inactive" → 2 ≤ node.Size →
        ImageElement.ParseLine ext node k =
          some { k with sprite0 := some (ext.spriteSet (node.Token 1)) }) ∧
    (∀ (ext : Externals) (node : DataLine) (k : ImageKind),
        k.name = "" → node.Token 0 = "hover" → 2 ≤ node.Size →
        ImageElement.ParseLine ext node k =
          some { k with sprite2 := some (ext.spriteSet (node.Token 1)) }) := by
  refine ⟨?_, ?_, ?_, ?_, ?_⟩
  · intro k s h
    cases h0 : k.sprite0 <;> cases h2 : k.sprite2 <;>
      simp [ImageElement.FillDefaults, ImageKind.spriteAt, h, h0, h2]
  · intro ext node ga h
    have h2 : ¬ node.Size < 2 := by omega
    simp only [ImageElement.Construct, h2, if_false]
  · intro ext node k hname htok
    rcases htok with h | h <;> simp [ImageElement.ParseLine, h, hname]
  · intro ext node k hname htok hsize
    simp [ImageElement.ParseLine, htok, hname, hsize]
  · intro ext node k hname htok hsize
    simp [ImageElement.ParseLine, htok, hname, hsize]

/-- Witness for C10: with an active sprite 32×16 and an explicit hover
sprite 8×8, filling leaves hover alone and copies the active sprite into
the inactive slot; a dynamic-name image rejects an "inactive" line. -/
theorem image_sprite_state_defaults_witness :
    (ImageElement.FillDefaults
        { sprite1 := some ⟨32, 16⟩, sprite2 := some ⟨8, 8⟩ }).sprite0 = some ⟨32, 16⟩ ∧
    (ImageElement.FillDefaults
        { sprite1 := some ⟨32, 16⟩, sprite2 := some ⟨8, 8⟩ }).sprite2 = some ⟨8, 8⟩ ∧
    ImageElement.ParseLine sampleExt ⟨["inactive", "foo"], []⟩ { name := "dyn" } =
      none := by
  refine ⟨?_, ?_, ?_⟩
  · exact (image_sprite_state_defaults.1
      { sprite1 := some ⟨32, 16⟩, sprite2 := some ⟨8, 8⟩ } ⟨32, 16⟩ rfl).1
  · exact (image_sprite_state_defaults.1
      { sprite1 := some ⟨32, 16⟩, sprite2 := some ⟨8, 8⟩ } ⟨32, 16⟩ rfl).2.2.1
  · exact image_sprite_state_defaults.2.2.1 sampleExt ⟨["inactive", "foo"], []⟩
      { name := "dyn" } (by decide) (Or.inl rfl)

/-- Counterexample to C4: on an element whose alignment is (0,0) (the
default) with dimensions (2,2), the directive `from 10 10` yields the
rectangle centered at (10,10), whose top-left corner is (9,9) — not the
claimed `point - 0.5 * alignment * dimensions = (10,10)`. -/
theorem from_directive_counterexample :
    ((loadLine (⟨0, 0⟩ : Point) (fun (_ : DataLine) (_ : Unit) => none)
        ⟨{ bounds := ⟨⟨0, 0⟩, ⟨2, 2⟩⟩ }, (), true⟩
        ⟨["from", "10", "10"], [0, 10, 10]⟩).common.bounds).TopLeft ≠
      (⟨10, 10⟩ : Point) -
        (1/2 : ℚ) • ((⟨0, 0⟩ : Point) * (⟨2, 2⟩ : Point)) := by
  have h : (loadLine (⟨0, 0⟩ : Point) (fun (_ : DataLine) (_ : Unit) => none)
      ⟨{ bounds := ⟨⟨0, 0⟩, ⟨2, 2⟩⟩ }, (), true⟩
      ⟨["from", "10", "10"], [0, 10, 10]⟩).common.bounds = ⟨⟨10, 10⟩, ⟨2, 2⟩⟩ := by
    simp [loadLine, DataLine.Token, DataLine.Value, DataLine.Size, List.getD,
      Rectangle.Dimensions, Point.sub_def, Point.smul_def, Point.mul_def]
  rw [h]
  norm_num [Rectangle.TopLeft, Point.sub_def, Point.smul_def, Point.mul_def,
    Point.mk.injEq]

/-- C4 (amended): a `from <x> <y>` directive with no `to` leaves the
dimensions unchanged and repositions the rectangle so that its new
CENTER equals the given point minus `0.5 * (current element alignment) *
dimensions` (so the top-left corner is that center minus half the
dimensions, not the point itself). -/
theorem from_directive_positions_center :
    ∀ (σ : Type) (pl : DataLine → σ → Option σ) (ga : Point) (acc : LoadAcc σ)
      (child : DataLine),
      child.Token 0 = "from" → 3 ≤ child.Size →
      ¬ (6 ≤ child.Size ∧ child.Token 3 = "to") →
      (loadLine ga pl acc child).common.bounds =
        ⟨(⟨child.Value 1, child.Value 2⟩ : Point) -
            (1/2 : ℚ) • (acc.common.alignment * acc.common.bounds.Dimensions),
          acc.common.bounds.Dimensions⟩ := by
  intro σ pl ga acc child htok hsize hto
  have hal : ¬ (child.Token 0 = "align" ∧ 1 < child.Size) := by simp [htok]
  have hd : ¬ (child.Token 0 = "dimensions" ∧ 3 ≤ child.Size) := by simp [htok]
  have hw : ¬ (child.Token 0 = "width" ∧ 2 ≤ child.Size) := by simp [htok]
  have hh : ¬ (child.Token 0 = "height" ∧ 2 ≤ child.Size) := by simp [htok]
  have hc : ¬ (child.Token 0 = "center" ∧ 3 ≤ child.Size) := by simp [htok]
  simp [loadLine, hal, hd, hw, hh, hc, hto, htok, hsize]

/-- Witness for C4 (amended): with element alignment (-1,-1) and
dimensions (2,2), `from 10 10` centers the rectangle at (11,11). -/
theorem from_directive_positions_center_witness :
    (loadLine (⟨0, 0⟩ : Point) (fun (_ : DataLine) (_ : Unit) => none)
        ⟨{ bounds := ⟨⟨0, 0⟩, ⟨2, 2⟩⟩, alignment := ⟨-1, -1⟩ }, (), true⟩
        ⟨["from", "10", "10"], [0, 10, 10]⟩).common.bounds =
      ⟨⟨11, 11⟩, ⟨2, 2⟩⟩ := by
  have h := from_directive_positions_center Unit (fun _ _ => none) ⟨0, 0⟩
    ⟨{ bounds := ⟨⟨0, 0⟩, ⟨2, 2⟩⟩, alignment := ⟨-1, -1⟩ }, (), true⟩
    ⟨["from", "10", "10"], [0, 10, 10]⟩ (by decide) (by decide) (by decide)
  rw [h]
  norm_num [DataLine.Value, Rectangle.Dimensions, Point.sub_def, Point.smul_def,
    Point.mul_def]

/-- Counterexample to C5: with global alignment (1,1) and a 100×100
viewport the anchor offset is (50,50), but `GetSize` of a stored 2×2
point returns (2,2), not the offset-translated (52,52): the size query
does not apply the anchor offset. -/
theorem getSize_counterexample :
    Interface.GetSize
        { alignment := ⟨1, 1⟩, points := [("p", ⟨⟨0, 0⟩, ⟨2, 2⟩⟩)] }
        ⟨100, 100⟩ "p" ≠
      (⟨2, 2⟩ : Point) + (1/2 : ℚ) • (⟨100, 100⟩ : Point) * (⟨1, 1⟩ : Point) := by
  norm_num [Interface.GetSize, List.lookup, Rectangle.Dimensions, Point.add_def,
    Point.smul_def, Point.mul_def, Point.mk.injEq]

/-- C5 (amended): for an absent name, all three queries return their
zero values (`GetPoint` and `GetSize` the zero point, `GetBox` the empty
rectangle); for a stored point, `GetPoint` returns the stored center
plus the anchor offset `0.5 * screen * alignment` and `GetBox` the
stored rectangle translated by that offset, while `GetSize` returns the
stored dimensions untranslated. -/
theorem point_queries_offset :
    ∀ (i : Interface) (screen : Point) (name : String),
      (i.points.lookup name = none →
        Interface.GetPoint i screen name = ⟨0, 0⟩ ∧
        Interface.GetSize i screen name = ⟨0, 0⟩ ∧
        Interface.GetBox i screen name = ⟨⟨0, 0⟩, ⟨0, 0⟩⟩) ∧
      (∀ r, i.points.lookup name = some r →
        Interface.GetPoint i screen name =
          r.Center + (1/2 : ℚ) • screen * i.alignment ∧
        Interface.GetBox i screen name =
          r + (1/2 : ℚ) • screen * i.alignment ∧
        Interface.GetSize i screen name = r.Dimensions) ∧
      Interface.HasPoint i name = (i.points.lookup name).isSome := by
  intro i screen name
  refine ⟨?_, ?_, rfl⟩
  · intro h
    simp [Interface.GetPoint, Interface.GetSize, Interface.GetBox, h]
  · intro r h
    simp [Interface.GetPoint, Interface.GetSize, Interface.GetBox, h]

/-- Witness for C5 (amended): the stored 2×2 point at the origin under
a (50,50) anchor offset has center query (50,50), box centered at
(50,50), and size query (2,2). -/
theorem point_queries_offset_witness :
    Interface.GetPoint { alignment := ⟨1, 1⟩, points := [("p", ⟨⟨0, 0⟩, ⟨2, 2⟩⟩)] }
        ⟨100, 100⟩ "p" = ⟨50, 50⟩ ∧
    Interface.GetBox { alignment := ⟨1, 1⟩, points := [("p", ⟨⟨0, 0⟩, ⟨2, 2⟩⟩)] }
        ⟨100, 100⟩ "p" = ⟨⟨50, 50⟩, ⟨2, 2⟩⟩ ∧
    Interface.GetSize { alignment := ⟨1, 1⟩, points := [("p", ⟨⟨0, 0⟩, ⟨2, 2⟩⟩)] }
        ⟨100, 100⟩ "p" = ⟨2, 2⟩ := by
  have h := (point_queries_offset
      { alignment := ⟨1, 1⟩, points := [("p", ⟨⟨0, 0⟩, ⟨2, 2⟩⟩)] }
      ⟨100, 100⟩ "p").2.1 ⟨⟨0, 0⟩, ⟨2, 2⟩⟩ (by simp [List.lookup])
  obtain ⟨h1, h2, h3⟩ := h
  refine ⟨?_, ?_, ?_⟩
  · rw [h1]
    norm_num [Rectangle.Center, Point.add_def, Point.smul_def, Point.mul_def]
  · rw [h2]
    norm_num [Rectangle.add_point_def, Point.add_def, Point.smul_def, Point.mul_def]
  · rw [h3]
    rfl

/-- Characterization of the bar-drawing loop: as long as each of the
first `n` iterations starts strictly below `value` and can complete its
filled run within `value`, and the `(n+1)`-st would start at or beyond
`value`, the loop emits exactly the `n` runs at multiples of
`filled + empty`. -/
theorem barRunsAux_eq_range (value filled empty : ℚ) :
    ∀ (n : ℕ), ∀ (fuel : ℕ) (v : ℚ), n ≤ fuel →
      (∀ k : ℕ, k < n → v + k * (filled + empty) < value ∧
        v + k * (filled + empty) + filled ≤ value) →
      value ≤ v + n * (filled + empty) →
      barRunsAux value filled empty fuel v =
        (List.range n).map
          (fun k : ℕ => (v + (k : ℚ) * (filled + empty),
                         v + (k : ℚ) * (filled + empty) + filled)) := by
  intro n
  induction n with
  | zero =>
    intro fuel v _ _ hstop
    have hnv : ¬ v < value := by push_neg; simpa using hstop
    cases fuel with
    | zero => simp [barRunsAux]
    | succ f => simp [barRunsAux, hnv]
  | succ m ih =>
    intro fuel v hfuel hlt hstop
    obtain ⟨f, rfl⟩ : ∃ f, fuel = f + 1 := ⟨fuel - 1, by omega⟩
    have h0 := hlt 0 m.succ_pos
    have hv : v < value := by simpa using h0.1
    have hrunfit : v + filled ≤ value := by simpa using h0.2
    have hmin : min (v + filled) value = v + filled := min_eq_left hrunfit
    have hrec := ih f (v + (filled + empty)) (by omega)
      (fun k hk => by
        have := hlt (k + 1) (by omega)
        push_cast at this ⊢
        constructor <;> [linarith [this.1]; linarith [this.2]])
      (by push_cast at hstop ⊢; linarith)
    simp only [barRunsAux, if_pos hv, hmin]
    rw [show v + filled + empty = v + (filled + empty) by ring, hrec]
    rw [List.range_succ_eq_map, List.map_cons, List.map_map]
    refine congrArg₂ List.cons (by norm_num) ?_
    refine List.map_congr_left ?_
    intro k _
    simp only [Function.comp, Prod.mk.injEq]
    push_cast
    constructor <;> ring

/-- Adding a zero multiple of any vector is the identity (used to
recognize the start corner of the first bar run). -/
theorem Point.add_zero_smul (p q : Point) : p + (0 : ℚ) • q = p := by
  cases p
  cases q
  simp [Point.add_def, Point.smul_def]

/-- Counterexample to C6: a bar with provider value 1/2 and segment
count 2 (stroke width 1 over a diagonal of length 10) issues a single
filled run — not the 2 runs the claim's "N filled runs" clause demands
for every value in (0,1]: the loop stops as soon as the accumulated
progress reaches the value. -/
theorem bar_draw_segments_counterexample :
    (BarElement.Draw { name := "b", color := some ⟨1, 0, 0, 1⟩, width := 1 }
        ⟨⟨0, 0⟩, ⟨6, 8⟩⟩ sampleInfo 10 3).length = 1 ∧
    (BarElement.Draw { name := "b", color := some ⟨1, 0, 0, 1⟩, width := 1 }
        ⟨⟨0, 0⟩, ⟨6, 8⟩⟩ sampleInfo 10 3).length ≠ 2 := by
  have h : BarElement.Draw { name := "b", color := some ⟨1, 0, 0, 1⟩, width := 1 }
      ⟨⟨0, 0⟩, ⟨6, 8⟩⟩ sampleInfo 10 3 =
      [DrawCall.line (Rectangle.BottomRight ⟨⟨0, 0⟩, ⟨6, 8⟩⟩)
        (Rectangle.BottomRight ⟨⟨0, 0⟩, ⟨6, 8⟩⟩ +
          (min (0 + (1 - 1 / 10 * (2 - 1)) / 2) (1/2) : ℚ) •
            (-Rectangle.Dimensions ⟨⟨0, 0⟩, ⟨6, 8⟩⟩)) 1 ⟨1, 0, 0, 1⟩] := by
    norm_num [BarElement.Draw, sampleInfo, BarElement.EffectiveSegments, barRunsAux,
      Point.add_zero_smul]
  rw [h]
  norm_num

/-- C6 (amended): a provider segment count ≤ 1 is treated as 0 (no
segmentation).  With no segmentation and value in (0,1], the draw issues
exactly one filled run spanning length fractions 0 to value of the
diagonal from the rectangle's bottom-right toward its top-left.  With
segment count N ≥ 2 the runs advance in steps of `filled + empty`,
where `empty = strokeWidth/totalLength` is the gap fraction between
consecutive runs and `filled = (1 - empty*(N-1))/N`, and the loop stops
as soon as the accumulated progress reaches the value; when value = 1
(and the gaps are small enough that filled > 0) this yields exactly N
filled runs separated by N-1 gaps, the k-th run spanning fractions
`k*(filled+empty)` to `k*(filled+empty) + filled`, so the last ends
exactly at 1; for values below 1 the loop may stop after fewer than N
runs (see the counterexample). -/
theorem bar_draw_segments_model :
    (∀ s : ℚ, s ≤ 1 → BarElement.EffectiveSegments s = 0) ∧
    (∀ (k : BarKind) (rect : Rectangle) (info : Information) (length : ℚ)
        (fuel : Nat) (col : Color),
        k.color = some col → k.width ≠ 0 → k.isRing = false →
        info.barSegments k.name ≤ 1 →
        0 < info.barValue k.name → info.barValue k.name ≤ 1 → 2 ≤ fuel →
        BarElement.Draw k rect info length fuel =
          [DrawCall.line rect.BottomRight
            (rect.BottomRight + info.barValue k.name • (-rect.Dimensions))
            k.width col]) ∧
    (∀ (k : BarKind) (rect : Rectangle) (info : Information) (length : ℚ)
        (fuel : Nat) (col : Color) (N : ℕ),
        k.color = some col → k.width ≠ 0 → k.isRing = false →
        info.barSegments k.name = (N : ℚ) → 2 ≤ N →
        info.barValue k.name = 1 →
        0 ≤ k.width / length → k.width / length * ((N : ℚ) - 1) < 1 →
        N ≤ fuel →
        BarElement.Draw k rect info length fuel =
          (List.range N).map (fun j : ℕ =>
            DrawCall.line
              (rect.BottomRight +
                ((j : ℚ) * ((1 - k.width / length * ((N : ℚ) - 1)) / (N : ℚ) +
                  k.width / length)) • (-rect.Dimensions))
              (rect.BottomRight +
                ((j : ℚ) * ((1 - k.width / length * ((N : ℚ) - 1)) / (N : ℚ) +
                  k.width / length) +
                  (1 - k.width / length * ((N : ℚ) - 1)) / (N : ℚ)) •
                  (-rect.Dimensions))
              k.width col) ∧
        (BarElement.Draw k rect info length fuel).length = N) := by
  refine ⟨?_, ?_, ?_⟩
  · intro s hs
    simp [BarElement.EffectiveSegments, hs]
  · intro k rect info length fuel col hcol hw hring hseg hv0 hv1 hfuel
    obtain ⟨f, rfl⟩ : ∃ f, fuel = f + 2 := ⟨fuel - 2, by omega⟩
    have hes : BarElement.EffectiveSegments (info.barSegments k.name) = 0 := by
      simp [BarElement.EffectiveSegments, hseg]
    have hnv : ¬ ((0 : ℚ) + 1 + 0 < info.barValue k.name) := by linarith
    have hmin : min ((0 : ℚ) + 1) (info.barValue k.name) = info.barValue k.name :=
      min_eq_right (by linarith)
    have hvne : info.barValue k.name ≠ 0 := ne_of_gt hv0
    simp only [BarElement.Draw, hes, hcol, hring, Bool.false_eq_true, if_false,
      if_true, barRunsAux, hv0, if_pos hv0, hnv, hmin]
    norm_num [hw, hvne, hv0]
    exact Point.add_zero_smul _ _
  · intro k rect info length fuel col N hcol hw hring hseg hN hval he0 hfill hfuel
    have hN0 : (0 : ℚ) < (N : ℚ) := by exact_mod_cast (by omega : 0 < N)
    have hNne : (N : ℚ) ≠ 0 := ne_of_gt hN0
    have hn1 : ¬ ((N : ℚ) ≤ 1) := by
      push_neg
      exact_mod_cast (by omega : 1 < N)
    have hes : BarElement.EffectiveSegments (info.barSegments k.name) = (N : ℚ) := by
      rw [hseg]
      simp [BarElement.EffectiveSegments, hn1]
    have hstep : (1 - k.width / length * ((N : ℚ) - 1)) / (N : ℚ) + k.width / length =
        (1 + k.width / length) / (N : ℚ) := by
      field_simp
      ring
    have hlt : ∀ j : ℕ, j < N →
        (0 : ℚ) + (j : ℚ) * ((1 - k.width / length * ((N : ℚ) - 1)) / (N : ℚ) +
          k.width / length) < 1 ∧
        (0 : ℚ) + (j : ℚ) * ((1 - k.width / length * ((N : ℚ) - 1)) / (N : ℚ) +
          k.width / length) +
          (1 - k.width / length * ((N : ℚ) - 1)) / (N : ℚ) ≤ 1 := by
      intro j hj
      have hjle : (j : ℚ) ≤ (N : ℚ) - 1 := by
        have : (j : ℚ) + 1 ≤ (N : ℚ) := by exact_mod_cast hj
        linarith
      have hje : (j : ℚ) * (k.width / length) ≤ ((N : ℚ) - 1) * (k.width / length) :=
        mul_le_mul_of_nonneg_right hjle he0
      constructor
      · rw [hstep, zero_add]
        rw [show (j : ℚ) * ((1 + k.width / length) / (N : ℚ)) =
          ((j : ℚ) * (1 + k.width / length)) / (N : ℚ) by ring]
        rw [div_lt_one hN0]
        nlinarith
      · rw [hstep]
        rw [show (0 : ℚ) + (j : ℚ) * ((1 + k.width / length) / (N : ℚ)) +
            (1 - k.width / length * ((N : ℚ) - 1)) / (N : ℚ) =
            ((j : ℚ) * (1 + k.width / length) + 1 -
              k.width / length * ((N : ℚ) - 1)) / (N : ℚ) by ring]
        rw [div_le_one hN0]
        nlinarith
    have hstop : (1 : ℚ) ≤ 0 + (N : ℚ) *
        ((1 - k.width / length * ((N : ℚ) - 1)) / (N : ℚ) + k.width / length) := by
      rw [hstep, zero_add]
      rw [mul_div_cancel₀ _ hNne]
      linarith
    have hruns := barRunsAux_eq_range 1
      ((1 - k.width / length * ((N : ℚ) - 1)) / (N : ℚ)) (k.width / length)
      N fuel 0 hfuel hlt hstop
    have hdraw : BarElement.Draw k rect info length fuel =
        (List.range N).map (fun j : ℕ =>
          DrawCall.line
            (rect.BottomRight +
              ((j : ℚ) * ((1 - k.width / length * ((N : ℚ) - 1)) / (N : ℚ) +
                k.width / length)) • (-rect.Dimensions))
            (rect.BottomRight +
              ((j : ℚ) * ((1 - k.width / length * ((N : ℚ) - 1)) / (N : ℚ) +
                k.width / length) +
                (1 - k.width / length * ((N : ℚ) - 1)) / (N : ℚ)) •
                (-rect.Dimensions))
            k.width col) := by
      simp only [BarElement.Draw, hes, hcol, hring, Bool.false_eq_true, if_false,
        hval, hNne, if_neg hNne, hw]
      norm_num [hw]
      rw [hruns]
      rw [List.map_map]
      refine List.map_congr_left ?_
      intro j _
      simp only [Function.comp, zero_add]
    exact ⟨hdraw, by rw [hdraw]; simp⟩

/-- Witness for C6 (amended): at full value 1 with segment count 2 the
bar issues exactly 2 runs; with segment count 1 (treated as none) and
value 1/2 it issues the single run from the bottom-right corner (3,4)
halfway along the diagonal. -/
theorem bar_draw_segments_model_witness :
    (BarElement.Draw { name := "b", color := some ⟨1, 0, 0, 1⟩, width := 1 }
        ⟨⟨0, 0⟩, ⟨6, 8⟩⟩ { sampleInfo with barValue := fun _ => 1 } 10 2).length = 2 ∧
    BarElement.Draw { name := "b", color := some ⟨1, 0, 0, 1⟩, width := 1 }
        ⟨⟨0, 0⟩, ⟨6, 8⟩⟩ { sampleInfo with barSegments := fun _ => 1 } 10 2 =
      [DrawCall.line (⟨3, 4⟩ : Point)
        ((⟨3, 4⟩ : Point) + (1/2 : ℚ) • (-(⟨6, 8⟩ : Point))) 1 ⟨1, 0, 0, 1⟩] := by
  constructor
  · exact (bar_draw_segments_model.2.2
      { name := "b", color := some ⟨1, 0, 0, 1⟩, width := 1 } ⟨⟨0, 0⟩, ⟨6, 8⟩⟩
      { sampleInfo with barValue := fun _ => 1 } 10 2 ⟨1, 0, 0, 1⟩ 2
      rfl (by norm_num) rfl (by norm_num [sampleInfo]) (by norm_num)
      (by norm_num [sampleInfo]) (by norm_num) (by norm_num) (by norm_num)).2
  · have h := bar_draw_segments_model.2.1
      { name := "b", color := some ⟨1, 0, 0, 1⟩, width := 1 } ⟨⟨0, 0⟩, ⟨6, 8⟩⟩
      { sampleInfo with barSegments := fun _ => 1 } 10 2 ⟨1, 0, 0, 1⟩
      rfl (by norm_num) rfl (by norm_num [sampleInfo]) (by norm_num [sampleInfo])
      (by norm_num [sampleInfo]) (by norm_num)
    rw [h]
    norm_num [sampleInfo, Rectangle.BottomRight, Rectangle.Dimensions,
      Point.add_def, Point.neg_def, Point.smul_def]

end EndlessSky
